import Mathlib

/-!
Verification of the user-data rendering core of `antokel_cloud`
(`src/antokel_cloud/aws/ec2/user_data/base.py` and
`src/antokel_cloud/aws/ec2/user_data/container_fleet.py`).

Strings are modelled as Lean `String`s; the character-level helpers work on
`List Char` (the `data` field) so that the proofs can proceed by list
induction.  Python `dict[str, str]` values (insertion ordered) are modelled
as association lists `List (String × String)` in insertion order.
-/

namespace Antokel

/-- Python `str.strip()` whitespace test: the exact set of code points for
which `str.isspace()` holds (U+0009..U+000D, U+001C..U+0020, U+0085,
U+00A0, U+1680, U+2000..U+200A, U+2028, U+2029, U+202F, U+205F, U+3000). -/
def isPySpace (c : Char) : Bool :=
  (0x09 ≤ c.toNat && c.toNat ≤ 0x0d) || (0x1c ≤ c.toNat && c.toNat ≤ 0x20) ||
  c.toNat = 0x85 || c.toNat = 0xa0 || c.toNat = 0x1680 ||
  (0x2000 ≤ c.toNat && c.toNat ≤ 0x200a) || c.toNat = 0x2028 ||
  c.toNat = 0x2029 || c.toNat = 0x202f || c.toNat = 0x205f ||
  c.toNat = 0x3000

/-- Left part of Python `str.strip`: drop leading whitespace. -/
def stripLeftL (l : List Char) : List Char := l.dropWhile isPySpace

/-- Right part of Python `str.strip`: drop trailing whitespace. -/
def stripRightL (l : List Char) : List Char := (l.reverse.dropWhile isPySpace).reverse

/-- Python `str.strip()` on the character list. -/
def pyStripL (l : List Char) : List Char := stripLeftL (stripRightL l)

/-- Python `str.strip()` lifted to `String`. -/
def pyStrip (s : String) : String := String.mk (pyStripL s.data)

/-- Characters `shlex.quote` leaves unquoted: ASCII `\w` (letters, digits,
underscore) together with at-sign, percent, plus, equals, colon, comma,
dot, slash and dash (the complement of Python `_find_unsafe`). -/
def isShlexSafe (c : Char) : Bool :=
  ('a' ≤ c && c ≤ 'z') || ('A' ≤ c && c ≤ 'Z') || ('0' ≤ c && c ≤ '9') ||
  c = '_' || c = '@' || c = '%' || c = '+' || c = '=' || c = ':' ||
  c = ',' || c = '.' || c = '/' || c = '-'

/-- The replacement `s.replace("'", "'\"'\"'")` performed by `shlex.quote`:
every single quote becomes the five characters `'"'"'`. -/
def shlexReplace : List Char → List Char
  | [] => []
  | c :: cs =>
    if c = '\'' then '\'' :: '"' :: '\'' :: '"' :: '\'' :: shlexReplace cs
    else c :: shlexReplace cs

/-- Python stdlib `shlex.quote` (called by `BaseUserData._shell_quote`):
empty strings become `''`; strings of safe characters pass through;
everything else is wrapped in single quotes with embedded single quotes
rewritten to `'"'"'`. -/
def shlexQuoteL (l : List Char) : List Char :=
  if l = [] then ['\'', '\'']
  else if l.all isShlexSafe then l
  else '\'' :: (shlexReplace l ++ ['\''])

/-- `BaseUserData._shell_quote` (base.py line 38): `shlex.quote(v)`. -/
def shell_quote (s : String) : String := String.mk (shlexQuoteL s.data)

/-- Substring of `s` after the last `/` — Python `s.rsplit("/", 1)[-1]`
(container_fleet.py line 51). -/
def afterLastSlashL (l : List Char) : List Char :=
  (l.reverse.takeWhile (fun c => !(c = '/'))).reverse

/-- Part of `s` before the first `/` — Python `s.split("/", 1)[0]`
(`BaseUserData._parse_ecr_registry`, base.py line 36). -/
def beforeFirstSlashL (l : List Char) : List Char :=
  l.takeWhile (fun c => !(c = '/'))

/-- `BaseUserData._parse_ecr_registry` (base.py lines 34-36). -/
def parse_ecr_registry (image : String) : String :=
  String.mk (beforeFirstSlashL image.data)

/-- The operating-system family accepted by `ContainerFleet.__init__`. -/
inductive OsFamily
  | amazon_linux | debian | ubuntu | red_hat | suse_linux | windows | macos
deriving DecidableEq, Repr

/-- The literal string of each `OsFamily` value (the Python `os` argument). -/
def osStr : OsFamily → String
  | .amazon_linux => "amazon_linux"
  | .debian => "debian"
  | .ubuntu => "ubuntu"
  | .red_hat => "red_hat"
  | .suse_linux => "suse_linux"
  | .windows => "windows"
  | .macos => "macos"

/-- `AwsRuntimeCredentials` (base.py lines 12-16): three independently
optional fields.  `none` models Python `None`. -/
structure AwsRuntimeCredentials where
  region : Option String := none
  access_key : Option String := none
  secret_key : Option String := none
deriving DecidableEq, Repr

/-- The input fields of a `ContainerFleet` user-data renderer
(container_fleet.py lines 22-47).  `env` is the insertion-ordered dict. -/
structure ContainerFleet where
  ecr : String
  os : OsFamily := .amazon_linux
  env : List (String × String) := []
  cmd : String := ""
  tag : String := "latest"
  include_aws_env : Bool := true
deriving DecidableEq, Repr

/-- `ContainerFleet._image` (container_fleet.py lines 49-54): keep `ecr`
verbatim when its last path segment already carries a `:tag`, otherwise
append `":" + tag`. -/
def imageOf (ecr tag : String) : String :=
  if (afterLastSlashL ecr.data).contains ':' then ecr else ecr ++ ":" ++ tag

/-- `ContainerFleet._image` as a method of the spec record. -/
def ContainerFleet.image (f : ContainerFleet) : String := imageOf f.ecr f.tag

/-- Python truthiness of an `Optional[str]`: `None` and `""` are falsy. -/
def pyTruthy : Option String → Bool
  | none => false
  | some s => !(s = "")

/-- `x or ""` on an `Optional[str]` (container_fleet.py lines 58-60). -/
def orEmpty : Option String → String
  | none => ""
  | some s => s

/-- Does the association list carry the key (Python `key in dict`)? -/
def hasKey (l : List (String × String)) (k : String) : Bool :=
  l.any (fun p => p.1 = k)

/-- Python `dict.setdefault k v`: insert at the end iff the key is absent. -/
def setdefault (l : List (String × String)) (k v : String) :
    List (String × String) :=
  if hasKey l k then l else l ++ [(k, v)]

/-- The `run_env` dict built by `ContainerFleet.render`
(container_fleet.py lines 85-92), as a pure function of the copied `env`
contents, the credentials and the `include_aws_env` flag. -/
def runEnvPure (env : List (String × String)) (creds : AwsRuntimeCredentials)
    (inc : Bool) : List (String × String) :=
  if inc then
    let e1 := if pyTruthy creds.region then
        setdefault env "AWS_REGION" (orEmpty creds.region) else env
    let e2 := if pyTruthy creds.access_key then
        setdefault e1 "AWS_ACCESS_KEY_ID" (orEmpty creds.access_key) else e1
    if pyTruthy creds.secret_key then
      setdefault e2 "AWS_SECRET_ACCESS_KEY" (orEmpty creds.secret_key) else e2
  else env

/-- The `run_env` value used by `ContainerFleet.render`. -/
def ContainerFleet.runEnv (f : ContainerFleet) (creds : AwsRuntimeCredentials) :
    List (String × String) :=
  runEnvPure f.env creds f.include_aws_env

/-- `env_flags` (container_fleet.py lines 94-96): empty when `run_env` is,
otherwise space-joined `-e key=value` flags with key and value quoted. -/
def envFlags (l : List (String × String)) : String :=
  if l = [] then ""
  else String.intercalate " "
    (l.map (fun kv => "-e " ++ shell_quote kv.1 ++ "=" ++ shell_quote kv.2))

/-- `login_cmd` (container_fleet.py lines 100-106). -/
def loginCmd (creds : AwsRuntimeCredentials) (registry : String) : String :=
  "AWS_REGION=" ++ shell_quote (orEmpty creds.region) ++
  " AWS_ACCESS_KEY_ID=" ++ shell_quote (orEmpty creds.access_key) ++
  " AWS_SECRET_ACCESS_KEY=" ++ shell_quote (orEmpty creds.secret_key) ++
  " aws ecr get-login-password --region " ++ shell_quote (orEmpty creds.region) ++
  " | docker login --username AWS --password-stdin " ++ shell_quote registry

/-- `docker_run` (container_fleet.py lines 108-118), as a function of the
fleet fields and the already-built `run_env` contents. -/
def dockerRunOf (cmd image : String) (runEnvV : List (String × String)) : String :=
  let entrypoint_flag := if !(cmd = "") then "--entrypoint ''" else ""
  let cmd_part := if !(cmd = "") then " " ++ cmd else ""
  pyStrip ("docker run -d --restart=always " ++ entrypoint_flag ++ " " ++
    envFlags runEnvV ++ " " ++ shell_quote image ++ cmd_part)

/-- The `docker_run` command rendered by a fleet with given credentials. -/
def ContainerFleet.dockerRun (f : ContainerFleet)
    (creds : AwsRuntimeCredentials) : String :=
  dockerRunOf f.cmd f.image (f.runEnv creds)

/-- The OS installer command lists (container_fleet.py lines 62-79):
`none` for the families the renderer rejects. -/
def installCmds : OsFamily → Option (List String)
  | .amazon_linux | .red_hat => some
      ["yum update -y",
       "yum install -y docker aws-cli",
       "service docker start",
       "usermod -a -G docker ec2-user"]
  | .ubuntu | .debian => some
      ["apt-get update -y",
       "apt-get install -y docker.io awscli",
       "systemctl enable docker",
       "systemctl start docker",
       "usermod -a -G docker ubuntu || true"]
  | _ => none

/-- The `install` block: `"\n".join(...)`, or the `ValueError` message of
container_fleet.py line 79 for the unsupported families. -/
def installFor (os : OsFamily) : Except String String :=
  match installCmds os with
  | some cmds => .ok (String.intercalate "\n" cmds)
  | none => .error ("Unsupported OS for ContainerFleet user-data: " ++ osStr os)

/-- The final f-string script template (container_fleet.py lines 120-132),
given the installer block and the already-built `run_env` contents. -/
def scriptOf (f : ContainerFleet) (creds : AwsRuntimeCredentials)
    (install : String) (runEnvV : List (String × String)) : String :=
  let image := f.image
  let registry := parse_ecr_registry image
  "#!/bin/bash\nset -euo pipefail\n\n" ++ install ++
  "\n\n# Authenticate to ECR and pull the image\nsu - ec2-user -c \"" ++
  loginCmd creds registry ++
  "\"\nsu - ec2-user -c \"docker pull " ++ shell_quote image ++
  "\"\n\n# Run the container in detached mode\nsu - ec2-user -c \"" ++
  dockerRunOf f.cmd image runEnvV ++ "\"\n"

/-- `ContainerFleet.render` (container_fleet.py lines 56-133): the raised
`ValueError` becomes `Except.error`; on success the full script string is
returned.  The credentials are the resolved `_aws_creds()` value. -/
def ContainerFleet.render (f : ContainerFleet)
    (creds : AwsRuntimeCredentials) : Except String String :=
  (installFor f.os).map (fun install => scriptOf f creds install (f.runEnv creds))

/-- `BaseUserData.__str__` (base.py lines 56-57): `render().strip() + "\n"`,
propagating the render-time failure. -/
def userDataString (f : ContainerFleet) (creds : AwsRuntimeCredentials) :
    Except String String :=
  (f.render creds).map (fun s => pyStrip s ++ "\n")

/-- Does `s` start with `p`? -/
def startsWithL (p s : List Char) : Bool := s.take p.length == p

/-- Does `s` end with `p`? -/
def endsWithL (p s : List Char) : Bool := s.drop (s.length - p.length) == p

/-- Does `p` occur as a contiguous substring of `s`? -/
def occursL (p : List Char) : List Char → Bool
  | [] => startsWithL p []
  | c :: cs => startsWithL p (c :: cs) || occursL p cs

/-- Number of positions of `s` at which `p` occurs. -/
def countOccsL (p : List Char) : List Char → Nat
  | [] => if startsWithL p [] then 1 else 0
  | c :: cs => (if startsWithL p (c :: cs) then 1 else 0) + countOccsL p cs

/-- A shell command made failure-tolerant by the `|| true` idiom. -/
def failTolerant (c : String) : Bool := endsWithL (" || true").data c.data

/-- One credential-injection step as the spec's words describe it: add the
key when the credential field is non-absent and the key is not already
present in the caller's `env`. -/
def specAdd (env acc : List (String × String)) (k : String)
    (v : Option String) : List (String × String) :=
  match v with
  | some s => if hasKey env k then acc else acc ++ [(k, s)]
  | none => acc

/-- The claim's environment extension, read literally: each of the three
AWS keys is added iff the credential field is non-absent and the key is not
already present in `spec.env`. -/
def specAwsExtend (env : List (String × String)) (c : AwsRuntimeCredentials) :
    List (String × String) :=
  specAdd env
    (specAdd env (specAdd env env "AWS_REGION" c.region)
      "AWS_ACCESS_KEY_ID" c.access_key)
    "AWS_SECRET_ACCESS_KEY" c.secret_key

/-- One credential-injection step amended to the code's truthiness test:
additionally require the credential field to be non-empty. -/
def specAddNE (env acc : List (String × String)) (k : String)
    (v : Option String) : List (String × String) :=
  match v with
  | some s => if s = "" then acc
      else if hasKey env k then acc else acc ++ [(k, s)]
  | none => acc

/-- The amended environment extension: keys added iff the credential field
is non-absent, non-empty, and not already present in `spec.env`. -/
def specAwsExtendNE (env : List (String × String))
    (c : AwsRuntimeCredentials) : List (String × String) :=
  specAddNE env
    (specAddNE env (specAddNE env env "AWS_REGION" c.region)
      "AWS_ACCESS_KEY_ID" c.access_key)
    "AWS_SECRET_ACCESS_KEY" c.secret_key

def fleetScenario : ContainerFleet :=
  { ecr := "123.dkr.ecr.us-east-1.amazonaws.com/app", os := OsFamily.ubuntu,
    include_aws_env := false }

def fleetCmd : ContainerFleet := { ecr := "h/r", cmd := "python main.py --x 1" }

def fleetNoCmd : ContainerFleet := { ecr := "h/r" }

inductive ShMode | norm | single | double
deriving DecidableEq, Repr

def isShWS (c : Char) : Bool := c = ' ' || c = '\t' || c = '\n'

def shSpecial (c : Char) : Bool :=
  c = '$' || c = '`' || c = '\\' || c = '|' || c = '&' || c = ';' ||
  c = '<' || c = '>' || c = '(' || c = ')' || c = '*' || c = '?' ||
  c = '[' || c = '#' || c = '~' || c = '!'

def shTok : List Char → ShMode → Option (List Char) → List (List Char) →
    Option (List (List Char))
  | [], .norm, none, acc => some acc
  | [], .norm, some t, acc => some (acc ++ [t])
  | [], .single, _, _ => none
  | [], .double, _, _ => none
  | c :: cs, .norm, cur, acc =>
    if isShWS c then
      match cur with
      | none => shTok cs .norm none acc
      | some t => shTok cs .norm none (acc ++ [t])
    else if c = '\'' then shTok cs .single (some (cur.getD [])) acc
    else if c = '"' then shTok cs .double (some (cur.getD [])) acc
    else if shSpecial c then none
    else shTok cs ShMode.norm (some (cur.getD [] ++ [c])) acc
  | c :: cs, .single, cur, acc =>
    if c = '\'' then shTok cs ShMode.norm cur acc
    else shTok cs ShMode.single (some (cur.getD [] ++ [c])) acc
  | c :: cs, .double, cur, acc =>
    if c = '"' then shTok cs ShMode.norm cur acc
    else if c = '$' || c = '`' || c = '\\' then none
    else shTok cs ShMode.double (some (cur.getD [] ++ [c])) acc

def shTokenize (s : String) : Option (List String) :=
  (shTok s.data ShMode.norm none []).map (fun ts => ts.map String.mk)

/-- The mutable-heap rendition of `run_env = dict(self.env)` followed by the
conditional `setdefault` calls (container_fleet.py lines 85-92): the heap
holds every live dict; the copy allocates a fresh cell and `setdefault`
mutates only the cell it is called on. -/
def mutSetdefault (heap : List (List (String × String))) (ref : Nat)
    (k v : String) : List (List (String × String)) :=
  heap.set ref (setdefault (heap.getD ref []) k v)

/-- Heap semantics of building `run_env`: returns the new heap and the
reference of the freshly allocated `run_env` dict. -/
def buildRunEnvHeap (heap : List (List (String × String))) (envRef : Nat)
    (creds : AwsRuntimeCredentials) (inc : Bool) :
    List (List (String × String)) × Nat :=
  let h1 := heap ++ [heap.getD envRef []]
  let r := heap.length
  if inc then
    let h2 := if pyTruthy creds.region then
        mutSetdefault h1 r "AWS_REGION" (orEmpty creds.region) else h1
    let h3 := if pyTruthy creds.access_key then
        mutSetdefault h2 r "AWS_ACCESS_KEY_ID" (orEmpty creds.access_key)
      else h2
    let h4 := if pyTruthy creds.secret_key then
        mutSetdefault h3 r "AWS_SECRET_ACCESS_KEY" (orEmpty creds.secret_key)
      else h3
    (h4, r)
  else (h1, r)

/-- `ContainerFleet.render` with the env dict living on the heap at
`envRef`: the raised `ValueError` leaves the heap untouched; otherwise the
script is rendered from the freshly built `run_env` cell.  The credentials
record is only read (it is rebuilt from scratch by `_aws_creds`), so it is
passed by value. -/
def renderHeap (f : ContainerFleet) (heap : List (List (String × String)))
    (envRef : Nat) (creds : AwsRuntimeCredentials) :
    Except String String × List (List (String × String)) :=
  match installFor f.os with
  | .error e => (.error e, heap)
  | .ok inst =>
    let p := buildRunEnvHeap heap envRef creds f.include_aws_env
    (.ok (scriptOf f creds inst (p.1.getD p.2 [])), p.1)

def fleetEnv : ContainerFleet := { ecr := "h/r", env := [("K", "V")] }

def credsFull : AwsRuntimeCredentials :=
  { region := some "us-east-1", access_key := some "AK",
    secret_key := some "SK" }

theorem startsWithL_append (p r : List Char) : startsWithL p (p ++ r) = true := by
  induction p with
  | nil => rfl
  | cons c cs ih =>
    simp only [startsWithL, List.cons_append, List.length_cons, List.take_succ_cons] at *
    simp_all

theorem occursL_of_startsWithL {p s : List Char} (h : startsWithL p s = true) :
    occursL p s = true := by
  cases s <;> simp [occursL, h]

theorem occursL_append_left {p r : List Char} (x : List Char)
    (h : occursL p r = true) : occursL p (x ++ r) = true := by
  induction x with
  | nil => simpa using h
  | cons c cs ih => simp [occursL, ih]

theorem occursL_mid (p a b : List Char) : occursL p (a ++ (p ++ b)) = true :=
  occursL_append_left a (occursL_of_startsWithL (startsWithL_append p b))

theorem endsWithL_append (p x : List Char) : endsWithL p (x ++ p) = true := by
  simp [endsWithL, List.drop_left]

theorem takeWhile_append_of_mem_not {p : Char → Bool} {a : Char} {xs : List Char}
    (ys : List Char) (hx : a ∈ xs) (ha : p a = false) :
    (xs ++ ys).takeWhile p = xs.takeWhile p := by
  induction xs with
  | nil => cases hx
  | cons c cs ih =>
    rcases List.mem_cons.mp hx with h | h
    · subst h
      simp [List.takeWhile_cons, ha]
    · by_cases hc : p c
      · simp [List.takeWhile_cons, hc, ih h]
      · simp [List.takeWhile_cons, hc]

theorem dropWhile_head_false {p : Char → Bool} {l : List Char} {c : Char} {cs : List Char}
    (h : l.dropWhile p = c :: cs) : p c = false := by
  induction l with
  | nil => simp [List.dropWhile] at h
  | cons x xs ih =>
    rw [List.dropWhile_cons] at h
    by_cases hx : p x
    · simp only [hx, if_true] at h
      exact ih h
    · simp only [hx, if_false] at h
      cases h
      simpa using hx

theorem mem_takeWhile_sat {p : Char → Bool} {a : Char} {l : List Char}
    (h : a ∈ l.takeWhile p) : p a = true := by
  induction l with
  | nil => cases h
  | cons c cs ih =>
    rw [List.takeWhile_cons] at h
    by_cases hc : p c
    · simp only [hc, if_true] at h
      rcases List.mem_cons.mp h with h | h
      · subst h; exact hc
      · exact ih h
    · simp only [hc, if_false] at h
      cases h

theorem afterLastSlash_char (l : List Char) :
    ∃ pre, l = pre ++ afterLastSlashL l ∧
      (afterLastSlashL l).all (fun c => !(c = '/')) = true ∧
      (pre = [] ∨ pre.getLast? = some '/') := by
  refine ⟨(l.reverse.dropWhile (fun c => !(c = '/'))).reverse, ?_, ?_, ?_⟩
  · have h := List.takeWhile_append_dropWhile (p := fun c => !(c = '/')) (l := l.reverse)
    calc l = l.reverse.reverse := (List.reverse_reverse l).symm
      _ = ((l.reverse.takeWhile (fun c => !(c = '/'))) ++
            (l.reverse.dropWhile (fun c => !(c = '/')))).reverse := by rw [h]
      _ = (l.reverse.dropWhile (fun c => !(c = '/'))).reverse ++ afterLastSlashL l := by
            rw [List.reverse_append]; rfl
  · rw [List.all_eq_true]
    intro x hx
    rw [afterLastSlashL, List.mem_reverse] at hx
    exact mem_takeWhile_sat hx
  · rcases hd : l.reverse.dropWhile (fun c => !(c = '/')) with _ | ⟨c, cs⟩
    · left; simp
    · right
      have := dropWhile_head_false hd
      have hc : c = '/' := by simpa using this
      subst hc
      simp [hd]

theorem beforeFirstSlash_char (l : List Char) :
    ∃ rest, l = beforeFirstSlashL l ++ rest ∧
      (beforeFirstSlashL l).all (fun c => !(c = '/')) = true ∧
      (rest = [] ∨ rest.head? = some '/') := by
  refine ⟨l.dropWhile (fun c => !(c = '/')), ?_, ?_, ?_⟩
  · exact (List.takeWhile_append_dropWhile (p := fun c => !(c = '/')) (l := l)).symm
  · rw [List.all_eq_true]
    intro x hx
    exact mem_takeWhile_sat hx
  · rcases hd : l.dropWhile (fun c => !(c = '/')) with _ | ⟨c, cs⟩
    · left; rfl
    · right
      have := dropWhile_head_false hd
      have hc : c = '/' := by simpa using this
      subst hc
      rfl

/-- C3: the resolved fully qualified image is `repository_path` verbatim
when the substring after the last `/` contains a `:`, and otherwise
`repository_path ++ ":" ++ default_tag`; in particular `"host/repo:v2"`
with default tag `"latest"` resolves to itself, and `"host/repo"` to
`"host/repo:latest"`.  The first conjunct certifies that `afterLastSlashL`
really returns the substring after the last `/`. -/
theorem image_tag_resolution (ecr tag : String) :
    (∃ pre, ecr.data = pre ++ afterLastSlashL ecr.data ∧
      (afterLastSlashL ecr.data).all (fun c => !(c = '/')) = true ∧
      (pre = [] ∨ pre.getLast? = some '/')) ∧
    imageOf ecr tag =
      (if (afterLastSlashL ecr.data).contains ':' then ecr
       else ecr ++ ":" ++ tag) ∧
    imageOf "host/repo:v2" "latest" = "host/repo:v2" ∧
    imageOf "host/repo" "latest" = "host/repo:latest" := by
  refine ⟨afterLastSlash_char ecr.data, rfl, by decide, by decide⟩

/-- C4 counterexample: with an empty `repository_path` and default tag
`"latest"`, the code's registry host is the non-empty string `":latest"`,
not the empty string, and it differs from the part of `repository_path`
before its first `/` (which is empty). -/
theorem registry_empty_path_counterexample :
    parse_ecr_registry (imageOf "" "latest") = ":latest" ∧
    ((parse_ecr_registry (imageOf "" "latest") ==
        ("" : String)) = false) ∧
    ((parse_ecr_registry (imageOf "" "latest") ==
        String.mk (beforeFirstSlashL ("" : String).data)) = false) := by
  refine ⟨by decide, by decide, by decide⟩

/-- C4 (amended): the registry host is the part of the fully qualified
image before its first `/` (first conjunct: the characterization of that
part); when `repository_path` contains a `/` this agrees with the part of
`repository_path` before its first `/`; an empty `repository_path` yields
the registry host `":"` followed by the default tag (up to the tag's own
first `/`), not the empty string.  Resolution is total and never fails. -/
theorem registry_host_amended (ecr tag : String) :
    (∃ rest, (imageOf ecr tag).data =
        (parse_ecr_registry (imageOf ecr tag)).data ++ rest ∧
      ((parse_ecr_registry (imageOf ecr tag)).data.all
        (fun c => !(c = '/'))) = true ∧
      (rest = [] ∨ rest.head? = some '/')) ∧
    (ecr.data.contains '/' = true →
      parse_ecr_registry (imageOf ecr tag) =
        String.mk (beforeFirstSlashL ecr.data)) ∧
    parse_ecr_registry (imageOf "" tag) =
      String.mk (':' :: beforeFirstSlashL tag.data) := by
  refine ⟨?_, ?_, ?_⟩
  · exact beforeFirstSlash_char (imageOf ecr tag).data
  · intro h
    have hm : '/' ∈ ecr.data := by
      simpa using h
    unfold imageOf
    by_cases hc : (afterLastSlashL ecr.data).contains ':' = true
    · rw [if_pos hc]
      rfl
    · rw [if_neg hc]
      unfold parse_ecr_registry beforeFirstSlashL
      congr 1
      rw [String.data_append, String.data_append]
      rw [List.append_assoc]
      exact takeWhile_append_of_mem_not _ hm (by decide)
  · unfold imageOf
    rw [if_neg (by decide)]
    unfold parse_ecr_registry beforeFirstSlashL
    congr 1

/-- C4 (amended) witness at `repository_path = "host/repo"`. -/
theorem registry_host_amended_witness :
    ("host/repo" : String).data.contains '/' = true ∧
    parse_ecr_registry (imageOf "host/repo" "latest") =
      String.mk (beforeFirstSlashL ("host/repo" : String).data) :=
  ⟨by decide, (registry_host_amended "host/repo" "latest").2.1 (by decide)⟩

theorem occursL_head (p r : List Char) : occursL p (p ++ r) = true :=
  occursL_of_startsWithL (startsWithL_append p r)

theorem loginCmd_contains_exports (creds : AwsRuntimeCredentials)
    (registry : String) :
    occursL (("AWS_REGION=" ++ shell_quote (orEmpty creds.region)).data)
      ((loginCmd creds registry).data) = true ∧
    occursL ((" AWS_ACCESS_KEY_ID=" ++
        shell_quote (orEmpty creds.access_key)).data)
      ((loginCmd creds registry).data) = true ∧
    occursL ((" AWS_SECRET_ACCESS_KEY=" ++
        shell_quote (orEmpty creds.secret_key)).data)
      ((loginCmd creds registry).data) = true := by
  have hL : (loginCmd creds registry).data =
      ("AWS_REGION=" ++ shell_quote (orEmpty creds.region)).data ++
      ((" AWS_ACCESS_KEY_ID=" ++ shell_quote (orEmpty creds.access_key)).data ++
       ((" AWS_SECRET_ACCESS_KEY=" ++ shell_quote (orEmpty creds.secret_key)).data ++
        ((" aws ecr get-login-password --region " ++
            shell_quote (orEmpty creds.region)).data ++
         (" | docker login --username AWS --password-stdin " ++
            shell_quote registry).data))) := by
    simp [loginCmd, String.data_append, List.append_assoc]
  refine ⟨?_, ?_, ?_⟩
  · rw [hL]; exact occursL_head _ _
  · rw [hL]
    exact occursL_append_left _ (occursL_head _ _)
  · rw [hL]
    exact occursL_append_left _ (occursL_append_left _ (occursL_head _ _))

/-- C8: the yum-family installer block is exactly four commands (package
index update, runtime + CLI install, service start, group add), none
failure-tolerant; the apt-family block is exactly five commands (update,
install, enable at boot, start, group add) with only the final group-add
made failure-tolerant via `|| true`.  `installFor` joins these blocks for
`ContainerFleet.render`. -/
theorem installer_blocks :
    installCmds OsFamily.amazon_linux = some
      ["yum update -y", "yum install -y docker aws-cli",
       "service docker start", "usermod -a -G docker ec2-user"] ∧
    installCmds OsFamily.red_hat = installCmds OsFamily.amazon_linux ∧
    installCmds OsFamily.ubuntu = some
      ["apt-get update -y", "apt-get install -y docker.io awscli",
       "systemctl enable docker", "systemctl start docker",
       "usermod -a -G docker ubuntu || true"] ∧
    installCmds OsFamily.debian = installCmds OsFamily.ubuntu ∧
    (["yum update -y", "yum install -y docker aws-cli",
      "service docker start", "usermod -a -G docker ec2-user"].map
        failTolerant) = [false, false, false, false] ∧
    (["apt-get update -y", "apt-get install -y docker.io awscli",
      "systemctl enable docker", "systemctl start docker",
      "usermod -a -G docker ubuntu || true"].map failTolerant)
      = [false, false, false, false, true] :=
  ⟨rfl, rfl, rfl, rfl, by decide, by decide⟩

/-- C10: a credential field that is present but empty is falsy in Python,
so it injects no `-e` flag into `run_env` (behaving exactly like an absent
field), while the login command still carries the empty-string export
(`AWS_REGION=''` etc.), exactly as it does for an absent field. -/
theorem empty_credential_field (f : ContainerFleet)
    (c : AwsRuntimeCredentials) (registry : String) :
    runEnvPure f.env { c with region := some "" } f.include_aws_env =
      runEnvPure f.env { c with region := none } f.include_aws_env ∧
    runEnvPure f.env { c with access_key := some "" } f.include_aws_env =
      runEnvPure f.env { c with access_key := none } f.include_aws_env ∧
    runEnvPure f.env { c with secret_key := some "" } f.include_aws_env =
      runEnvPure f.env { c with secret_key := none } f.include_aws_env ∧
    loginCmd { c with region := some "" } registry =
      loginCmd { c with region := none } registry ∧
    loginCmd { c with access_key := some "" } registry =
      loginCmd { c with access_key := none } registry ∧
    loginCmd { c with secret_key := some "" } registry =
      loginCmd { c with secret_key := none } registry ∧
    ("AWS_REGION=" ++ shell_quote "" : String) = "AWS_REGION=''" ∧
    occursL (("AWS_REGION=" ++ shell_quote "").data)
      ((loginCmd { c with region := some "" } registry).data) = true ∧
    occursL ((" AWS_ACCESS_KEY_ID=" ++ shell_quote "").data)
      ((loginCmd { c with access_key := some "" } registry).data) = true ∧
    occursL ((" AWS_SECRET_ACCESS_KEY=" ++ shell_quote "").data)
      ((loginCmd { c with secret_key := some "" } registry).data) = true := by
  refine ⟨?_, ?_, ?_, rfl, rfl, rfl, by decide, ?_, ?_, ?_⟩
  · simp [runEnvPure, pyTruthy]
  · simp [runEnvPure, pyTruthy]
  · simp [runEnvPure, pyTruthy]
  · exact (loginCmd_contains_exports { c with region := some "" } registry).1
  · exact (loginCmd_contains_exports { c with access_key := some "" } registry).2.1
  · exact (loginCmd_contains_exports { c with secret_key := some "" } registry).2.2

/-- C1: rendering with `os` equal to `windows`, `macos` or `suse_linux`
fails with the `ValueError` naming the unsupported family and yields no
script; rendering with `amazon_linux`, `red_hat`, `ubuntu` or `debian`
never raises this error. -/
theorem render_os_gate (f : ContainerFleet) (c : AwsRuntimeCredentials) :
    ((f.os = OsFamily.windows ∨ f.os = OsFamily.macos ∨
        f.os = OsFamily.suse_linux) →
      f.render c = Except.error
        ("Unsupported OS for ContainerFleet user-data: " ++ osStr f.os) ∧
      occursL ((osStr f.os).data)
        (("Unsupported OS for ContainerFleet user-data: " ++
          osStr f.os).data) = true) ∧
    ((f.os = OsFamily.amazon_linux ∨ f.os = OsFamily.red_hat ∨
        f.os = OsFamily.ubuntu ∨ f.os = OsFamily.debian) →
      ∃ s, f.render c = Except.ok s) := by
  constructor
  · intro h
    constructor
    · rcases h with h | h | h <;>
        simp [ContainerFleet.render, installFor, installCmds, h, Except.map]
    · rw [String.data_append]
      have ho := occursL_head ((osStr f.os).data) []
      rw [List.append_nil] at ho
      exact occursL_append_left _ ho
  · intro h
    rcases h with h | h | h | h <;>
      (unfold ContainerFleet.render installFor
       rw [h]
       exact ⟨_, rfl⟩)

/-- C1 witness: the gate at `os = windows` and `os = amazon_linux`. -/
theorem render_os_gate_witness :
    ContainerFleet.render { ecr := "h/r", os := OsFamily.windows } {} =
      Except.error ("Unsupported OS for ContainerFleet user-data: " ++
        osStr OsFamily.windows) ∧
    ∃ s, ContainerFleet.render { ecr := "h/r", os := OsFamily.amazon_linux } {} =
      Except.ok s :=
  ⟨((render_os_gate { ecr := "h/r", os := OsFamily.windows } {}).1
      (Or.inl rfl)).1,
   (render_os_gate { ecr := "h/r", os := OsFamily.amazon_linux } {}).2
      (Or.inl rfl)⟩

theorem hasKey_setdefault_ne (env : List (String × String)) (k v k' : String)
    (h : ¬ k = k') : hasKey (setdefault env k v) k' = hasKey env k' := by
  unfold setdefault
  split
  · rfl
  · simp [hasKey, List.any_append, h]

theorem hasKey_specAdd_ne (env acc : List (String × String)) (k : String)
    (v : Option String) (k' : String) (h : ¬ k = k') :
    hasKey (specAdd env acc k v) k' = hasKey acc k' := by
  cases v with
  | none => rfl
  | some s =>
    show hasKey (if hasKey env k then acc else acc ++ [(k, s)]) k'
        = hasKey acc k'
    split
    · rfl
    · simp [hasKey, List.any_append, h]

theorem hasKey_specAddNE_ne (env acc : List (String × String)) (k : String)
    (v : Option String) (k' : String) (h : ¬ k = k') :
    hasKey (specAddNE env acc k v) k' = hasKey acc k' := by
  cases v with
  | none => rfl
  | some s =>
    unfold specAddNE
    by_cases hs : s = ""
    · simp [hs]
    · simp only [hs, if_false]
      split
      · rfl
      · simp [hasKey, List.any_append, h]

theorem addAws_eq (env acc : List (String × String)) (k : String)
    (v : Option String) (hacc : hasKey acc k = hasKey env k) :
    (if pyTruthy v then setdefault acc k (orEmpty v) else acc) =
      specAddNE env acc k v := by
  cases v with
  | none => rfl
  | some s =>
    by_cases hs : s = ""
    · subst hs
      simp [pyTruthy, specAddNE]
    · simp [pyTruthy, specAddNE, hs, setdefault, hacc, orEmpty]

/-- The credential injection of `ContainerFleet.render` computes exactly
the amended spec extension. -/
theorem runEnvPure_eq_specNE (env : List (String × String))
    (c : AwsRuntimeCredentials) :
    runEnvPure env c true = specAwsExtendNE env c := by
  show (let e1 := if pyTruthy c.region then
          setdefault env "AWS_REGION" (orEmpty c.region) else env
        let e2 := if pyTruthy c.access_key then
          setdefault e1 "AWS_ACCESS_KEY_ID" (orEmpty c.access_key) else e1
        if pyTruthy c.secret_key then
          setdefault e2 "AWS_SECRET_ACCESS_KEY" (orEmpty c.secret_key) else e2)
      = specAwsExtendNE env c
  simp only []
  rw [addAws_eq env env "AWS_REGION" c.region rfl]
  have h1 : hasKey (specAddNE env env "AWS_REGION" c.region)
      "AWS_ACCESS_KEY_ID" = hasKey env "AWS_ACCESS_KEY_ID" :=
    hasKey_specAddNE_ne env env "AWS_REGION" c.region "AWS_ACCESS_KEY_ID"
      (by decide)
  rw [addAws_eq env _ "AWS_ACCESS_KEY_ID" c.access_key h1]
  have h2 : hasKey (specAddNE env (specAddNE env env "AWS_REGION" c.region)
      "AWS_ACCESS_KEY_ID" c.access_key) "AWS_SECRET_ACCESS_KEY" =
      hasKey env "AWS_SECRET_ACCESS_KEY" := by
    rw [hasKey_specAddNE_ne env _ "AWS_ACCESS_KEY_ID" c.access_key
      "AWS_SECRET_ACCESS_KEY" (by decide)]
    exact hasKey_specAddNE_ne env env "AWS_REGION" c.region
      "AWS_SECRET_ACCESS_KEY" (by decide)
  rw [addAws_eq env _ "AWS_SECRET_ACCESS_KEY" c.secret_key h2]
  rfl

/-- C2 counterexample: with an empty caller env, `include_aws_env` true and
a credential region that is present but equal to the empty string, the
claim's extension adds `AWS_REGION` (the field is non-absent) but the code
adds nothing: Python tests truthiness, not absence. -/
theorem runEnv_injection_counterexample :
    (runEnvPure []
        { region := some "", access_key := none, secret_key := none } true ==
      specAwsExtend []
        { region := some "", access_key := none, secret_key := none })
      = false ∧
    runEnvPure []
      { region := some "", access_key := none, secret_key := none } true
      = [] ∧
    specAwsExtend []
      { region := some "", access_key := none, secret_key := none }
      = [("AWS_REGION", "")] :=
  ⟨by decide, by decide, by decide⟩

/-- C2 (amended): with `include_aws_env` true the rendered environment set
equals `spec.env` extended with the three AWS keys, each added iff the
corresponding credential field is non-absent, NON-EMPTY, and not already
present in `spec.env`; caller entries keep their values.  The last two
conjuncts are the P4 instance: with `env = {AWS_REGION: custom}` and
region `us-east-1`, the `-e` flags contain `AWS_REGION=custom` exactly
once and `AWS_REGION=us-east-1` never. -/
theorem runEnv_injection_amended (f : ContainerFleet)
    (c : AwsRuntimeCredentials) (h : f.include_aws_env = true) :
    f.runEnv c = specAwsExtendNE f.env c ∧
    countOccsL ("AWS_REGION=custom".data)
      ((envFlags (runEnvPure [("AWS_REGION", "custom")]
        { region := some "us-east-1", access_key := none, secret_key := none }
        true)).data) = 1 ∧
    occursL ("AWS_REGION=us-east-1".data)
      ((envFlags (runEnvPure [("AWS_REGION", "custom")]
        { region := some "us-east-1", access_key := none, secret_key := none }
        true)).data) = false := by
  refine ⟨?_, by decide, by decide⟩
  rw [ContainerFleet.runEnv, h]
  exact runEnvPure_eq_specNE f.env c

/-- C2 (amended) witness at a concrete spec and credential context. -/
theorem runEnv_injection_amended_witness :
    ({ ecr := "h/r", env := [("AWS_REGION", "custom")] } :
        ContainerFleet).include_aws_env = true ∧
    ({ ecr := "h/r", env := [("AWS_REGION", "custom")] } :
        ContainerFleet).runEnv
      { region := some "us-east-1", access_key := some "AK",
        secret_key := none } =
    specAwsExtendNE [("AWS_REGION", "custom")]
      { region := some "us-east-1", access_key := some "AK",
        secret_key := none } :=
  ⟨rfl,
   (runEnv_injection_amended
      { ecr := "h/r", env := [("AWS_REGION", "custom")] }
      { region := some "us-east-1", access_key := some "AK",
        secret_key := none } rfl).1⟩

theorem stripRightL_append_qnl (l : List Char) :
    stripRightL (l ++ ['"', '\n']) = l ++ ['"'] := by
  unfold stripRightL
  rw [List.reverse_append]
  have h1 : (['"', '\n'] : List Char).reverse = ['\n', '"'] := by decide
  rw [h1]
  show (List.dropWhile isPySpace ('\n' :: '"' :: l.reverse)).reverse = _
  rw [List.dropWhile_cons]
  simp only [(by decide : isPySpace '\n' = true), if_true]
  rw [List.dropWhile_cons]
  simp only [(by decide : isPySpace '"' = false), Bool.false_eq_true, if_false]
  simp

theorem stripLeftL_cons_hash (m : List Char) :
    stripLeftL ('#' :: m) = '#' :: m := by
  unfold stripLeftL
  rw [List.dropWhile_cons]
  simp only [(by decide : isPySpace '#' = false), Bool.false_eq_true, if_false]

theorem pyStripL_final (m : List Char) :
    pyStripL (('#' :: m) ++ ['"', '\n']) = ('#' :: m) ++ ['"'] := by
  unfold pyStripL
  rw [stripRightL_append_qnl]
  rw [List.cons_append]
  exact stripLeftL_cons_hash _

/-- C5: for a supported OS, `str(user_data)` succeeds and the resulting
script ends in exactly one newline whose preceding character is the
non-whitespace `"`, and begins with the shebang line (no leading
whitespace). -/
theorem userData_trailing_newline (f : ContainerFleet)
    (c : AwsRuntimeCredentials)
    (h : f.os = OsFamily.amazon_linux ∨ f.os = OsFamily.red_hat ∨
      f.os = OsFamily.ubuntu ∨ f.os = OsFamily.debian) :
    ∃ out : String, userDataString f c = Except.ok out ∧
      (∃ body, out.data = body ++ ['"', '\n']) ∧
      isPySpace '"' = false ∧
      (∃ rest, out.data = ("#!/bin/bash\n").data ++ rest) := by
  obtain ⟨inst, hi⟩ : ∃ i, installFor f.os = Except.ok i := by
    rcases h with h | h | h | h <;> (rw [h]; exact ⟨_, rfl⟩)
  have hr : userDataString f c =
      Except.ok (pyStrip (scriptOf f c inst (f.runEnv c)) ++ "\n") := by
    unfold userDataString ContainerFleet.render
    rw [hi]
    rfl
  have hq : ("\"\n" : String).data = ['"', '\n'] := by decide
  have hdata : (scriptOf f c inst (f.runEnv c)).data =
      ("#!/bin/bash\nset -euo pipefail\n\n").data ++
      (inst.data ++
       (("\n\n# Authenticate to ECR and pull the image\nsu - ec2-user -c \"").data ++
        ((loginCmd c (parse_ecr_registry f.image)).data ++
         (("\"\nsu - ec2-user -c \"docker pull ").data ++
          ((shell_quote f.image).data ++
           (("\"\n\n# Run the container in detached mode\nsu - ec2-user -c \"").data ++
            ((dockerRunOf f.cmd f.image (f.runEnv c)).data ++
             ['"', '\n']))))))) := by
    rw [← hq]
    unfold scriptOf
    simp only [String.data_append, List.append_assoc]
  have hsh : ("#!/bin/bash\nset -euo pipefail\n\n" : String).data =
      '#' :: ("!/bin/bash\nset -euo pipefail\n\n" : String).data := by decide
  set M : List Char := inst.data ++
    (("\n\n# Authenticate to ECR and pull the image\nsu - ec2-user -c \"").data ++
     ((loginCmd c (parse_ecr_registry f.image)).data ++
      (("\"\nsu - ec2-user -c \"docker pull ").data ++
       ((shell_quote f.image).data ++
        (("\"\n\n# Run the container in detached mode\nsu - ec2-user -c \"").data ++
         (dockerRunOf f.cmd f.image (f.runEnv c)).data))))) with hM
  have hMq : (scriptOf f c inst (f.runEnv c)).data =
      ("#!/bin/bash\nset -euo pipefail\n\n").data ++ (M ++ ['"', '\n']) := by
    rw [hdata, hM]
    simp only [List.append_assoc]
  have hshape : (scriptOf f c inst (f.runEnv c)).data =
      ('#' :: (("!/bin/bash\nset -euo pipefail\n\n" : String).data ++ M)) ++
        ['"', '\n'] := by
    rw [hMq, hsh]
    simp only [List.cons_append, List.append_assoc]
  have hstrip : pyStripL (scriptOf f c inst (f.runEnv c)).data =
      ('#' :: (("!/bin/bash\nset -euo pipefail\n\n" : String).data ++ M)) ++
        ['"'] := by
    rw [hshape]
    exact pyStripL_final _
  have hps : (pyStrip (scriptOf f c inst (f.runEnv c))).data =
      pyStripL (scriptOf f c inst (f.runEnv c)).data := rfl
  have hnl : ("\n" : String).data = ['\n'] := by decide
  have hout : (pyStrip (scriptOf f c inst (f.runEnv c)) ++ "\n").data =
      ('#' :: (("!/bin/bash\nset -euo pipefail\n\n" : String).data ++ M)) ++
        ['"', '\n'] := by
    rw [String.data_append, hps, hstrip, hnl]
    simp only [List.append_assoc, List.cons_append, List.nil_append]
  refine ⟨_, hr, ⟨_, hout⟩, by decide, ?_⟩
  refine ⟨("set -euo pipefail\n\n" : String).data ++ (M ++ ['"', '\n']), ?_⟩
  rw [hout]
  have hsplit : ("#!/bin/bash\nset -euo pipefail\n\n" : String).data =
      ("#!/bin/bash\n" : String).data ++
      ("set -euo pipefail\n\n" : String).data := by decide
  rw [show ('#' :: (("!/bin/bash\nset -euo pipefail\n\n" : String).data ++ M)) ++
        (['"', '\n'] : List Char) =
      ("#!/bin/bash\nset -euo pipefail\n\n" : String).data ++
        (M ++ ['"', '\n']) from by
    rw [hsh]
    simp only [List.cons_append, List.append_assoc]]
  rw [hsplit]
  simp only [List.append_assoc]

/-- C5 witness at a concrete fleet and empty credential context. -/
theorem userData_trailing_newline_witness :
    (fleetScenario.os = OsFamily.amazon_linux ∨
      fleetScenario.os = OsFamily.red_hat ∨
      fleetScenario.os = OsFamily.ubuntu ∨
      fleetScenario.os = OsFamily.debian) ∧
    ∃ out : String, userDataString fleetScenario {} = Except.ok out ∧
      (∃ body, out.data = body ++ ['"', '\n']) ∧
      isPySpace '"' = false ∧
      (∃ rest, out.data = ("#!/bin/bash\n").data ++ rest) :=
  ⟨Or.inr (Or.inr (Or.inl rfl)),
   userData_trailing_newline fleetScenario {} (Or.inr (Or.inr (Or.inl rfl)))⟩

theorem dropWhile_append_char (p : Char → Bool) (a b : List Char) :
    (a ++ b).dropWhile p =
      if a.dropWhile p = [] then b.dropWhile p else a.dropWhile p ++ b := by
  induction a with
  | nil => simp
  | cons c cs ih =>
    rw [List.cons_append, List.dropWhile_cons, List.dropWhile_cons]
    by_cases hc : p c
    · simp [hc, ih]
    · simp [hc]

theorem stripRightL_append_dist (x t : List Char)
    (hx : stripRightL x = x) : stripRightL (x ++ t) = x ++ stripRightL t := by
  have hx' : x.reverse.dropWhile isPySpace = x.reverse := by
    have := congrArg List.reverse hx
    simpa [stripRightL] using this
  unfold stripRightL
  rw [List.reverse_append, dropWhile_append_char]
  by_cases h : t.reverse.dropWhile isPySpace = []
  · rw [if_pos h, hx', h]
    simp
  · rw [if_neg h, List.reverse_append, List.reverse_reverse]

theorem stripRightL_self_of (m : List Char) (ch : Char) {x : List Char}
    (hx : x = m ++ [ch]) (h : isPySpace ch = false) : stripRightL x = x := by
  subst hx
  unfold stripRightL
  rw [List.reverse_append]
  show (List.dropWhile isPySpace (ch :: m.reverse)).reverse = _
  rw [List.dropWhile_cons]
  simp [h]

theorem stripLeftL_cons_nonspace (c : Char) (m : List Char)
    (h : isPySpace c = false) : stripLeftL (c :: m) = c :: m := by
  unfold stripLeftL
  rw [List.dropWhile_cons]
  simp [h]

theorem isShlexSafe_not_space {c : Char} (h : isShlexSafe c = true) :
    isPySpace c = false := by
  cases hp : isPySpace c
  · rfl
  · exfalso
    simp only [isShlexSafe, Bool.or_eq_true, Bool.and_eq_true,
      decide_eq_true_eq] at h
    rcases h with (((((((((((⟨ha, hb⟩ | ⟨ha, hb⟩) | ⟨ha, hb⟩) | rfl) | rfl) |
        rfl) | rfl) | rfl) | rfl) | rfl) | rfl) | rfl) | rfl
    · simp only [isPySpace, Bool.or_eq_true, Bool.and_eq_true,
        decide_eq_true_eq] at hp
      have h1 : ('a').toNat ≤ c.toNat := ha
      have h2 : c.toNat ≤ ('z').toNat := hb
      have e1 : ('a').toNat = 97 := by decide
      have e2 : ('z').toNat = 122 := by decide
      omega
    · simp only [isPySpace, Bool.or_eq_true, Bool.and_eq_true,
        decide_eq_true_eq] at hp
      have h1 : ('A').toNat ≤ c.toNat := ha
      have h2 : c.toNat ≤ ('Z').toNat := hb
      have e1 : ('A').toNat = 65 := by decide
      have e2 : ('Z').toNat = 90 := by decide
      omega
    · simp only [isPySpace, Bool.or_eq_true, Bool.and_eq_true,
        decide_eq_true_eq] at hp
      have h1 : ('0').toNat ≤ c.toNat := ha
      have h2 : c.toNat ≤ ('9').toNat := hb
      have e1 : ('0').toNat = 48 := by decide
      have e2 : ('9').toNat = 57 := by decide
      omega
    · exact absurd hp (by decide)
    · exact absurd hp (by decide)
    · exact absurd hp (by decide)
    · exact absurd hp (by decide)
    · exact absurd hp (by decide)
    · exact absurd hp (by decide)
    · exact absurd hp (by decide)
    · exact absurd hp (by decide)
    · exact absurd hp (by decide)
    · exact absurd hp (by decide)

theorem quote_last_nonspace (l : List Char) :
    ∃ m ch, shlexQuoteL l = m ++ [ch] ∧ isPySpace ch = false := by
  unfold shlexQuoteL
  by_cases h0 : l = []
  · rw [if_pos h0]
    exact ⟨['\''], '\'', rfl, by decide⟩
  · rw [if_neg h0]
    by_cases hs : l.all isShlexSafe
    · rw [if_pos hs]
      obtain ⟨m, ch, hmc⟩ : ∃ m ch, l = m ++ [ch] :=
        ⟨l.dropLast, l.getLast h0, (List.dropLast_append_getLast h0).symm⟩
      refine ⟨m, ch, hmc, ?_⟩
      have hmem : ch ∈ l := by
        rw [hmc]
        exact List.mem_append_right _ (List.mem_singleton_self _)
      exact isShlexSafe_not_space (List.all_eq_true.mp hs ch hmem)
    · rw [if_neg hs]
      exact ⟨'\'' :: shlexReplace l, '\'', rfl, by decide⟩

theorem pyStripL_append_keep (m t : List Char)
    (hx : stripRightL ('d' :: m) = 'd' :: m) :
    pyStripL (('d' :: m) ++ t) = ('d' :: m) ++ stripRightL t := by
  unfold pyStripL
  rw [stripRightL_append_dist _ _ hx, List.cons_append]
  rw [stripLeftL_cons_nonspace 'd' _ (by decide)]

theorem stripRightL_space_cmd (d : List Char) (hd : d ≠ [])
    (hw : stripRightL d = d) : stripRightL (' ' :: d) = ' ' :: d := by
  have ha : d.reverse.dropWhile isPySpace = d.reverse := by
    have := congrArg List.reverse hw
    simpa [stripRightL] using this
  unfold stripRightL
  rw [List.reverse_cons, dropWhile_append_char, ha]
  rw [if_neg (by simpa using hd)]
  simp

theorem string_eq_empty_of_data {s : String} (h : s.data = []) : s = "" := by
  cases s
  simp_all

theorem pyStripL_keep_of (x m : List Char) (ch : Char)
    (hx : x = m ++ [ch]) (hch : isPySpace ch = false)
    (hd : ∃ r, x = 'd' :: r) : pyStripL x = x := by
  have h1 : stripRightL x = x := stripRightL_self_of m ch hx hch
  obtain ⟨r, hr⟩ := hd
  unfold pyStripL
  rw [h1, hr]
  exact stripLeftL_cons_nonspace 'd' r (by decide)

theorem pyStripL_keep_append (x t m : List Char) (ch : Char)
    (hx : x = m ++ [ch]) (hch : isPySpace ch = false)
    (hd : ∃ r, x = 'd' :: r) :
    pyStripL (x ++ t) = x ++ stripRightL t := by
  have h1 : stripRightL x = x := stripRightL_self_of m ch hx hch
  obtain ⟨r, hr⟩ := hd
  rw [hr] at h1 ⊢
  exact pyStripL_append_keep r t h1

theorem occurs_dash_d (rest : List Char) :
    occursL ((" -d " : String).data)
      (("docker run -d --restart=always " : String).data ++ rest) = true := by
  have hA : ("docker run -d --restart=always " : String).data =
      ("docker run" : String).data ++ ((" -d " : String).data ++
        ("--restart=always " : String).data) := by decide
  rw [hA]
  simp only [List.append_assoc]
  exact occursL_mid _ _ _

theorem occurs_restart (rest : List Char) :
    occursL (("--restart=always" : String).data)
      (("docker run -d --restart=always " : String).data ++ rest) = true := by
  have hA : ("docker run -d --restart=always " : String).data =
      ("docker run -d " : String).data ++ (("--restart=always" : String).data ++
        (" " : String).data) := by decide
  rw [hA]
  simp only [List.append_assoc]
  exact occursL_mid _ _ _

/-- C7 (amended): the run command always contains `-d`, `--restart=always`
and the environment flags; when `spec.cmd` is non-empty (and carries no
trailing whitespace, which the final `.strip()` would remove) it contains
`--entrypoint ''` and ends with the quoted image followed by the literal
unquoted `spec.cmd`; when `spec.cmd` is empty it is exactly the template
without any entrypoint flag, ending at the quoted image reference. -/
theorem dockerRun_shape (f : ContainerFleet) (c : AwsRuntimeCredentials) :
    occursL ((" -d " : String).data) ((f.dockerRun c).data) = true ∧
    occursL (("--restart=always" : String).data) ((f.dockerRun c).data) = true ∧
    occursL ((envFlags (f.runEnv c)).data) ((f.dockerRun c).data) = true ∧
    (¬ f.cmd = "" → stripRightL f.cmd.data = f.cmd.data →
      occursL (("--entrypoint ''" : String).data) ((f.dockerRun c).data) = true ∧
      endsWithL ((shell_quote f.image).data ++ ' ' :: f.cmd.data)
        ((f.dockerRun c).data) = true) ∧
    (f.cmd = "" →
      (f.dockerRun c).data =
        ("docker run -d --restart=always " : String).data ++
          ((" " : String).data ++ ((envFlags (f.runEnv c)).data ++
            ((" " : String).data ++ (shell_quote f.image).data))) ∧
      endsWithL ((shell_quote f.image).data) ((f.dockerRun c).data) = true) := by
  obtain ⟨mq, ch, hqd, hch⟩ := quote_last_nonspace (f.image).data
  have hqd' : (shell_quote f.image).data = mq ++ [ch] := hqd
  have hAd : ("docker run -d --restart=always " : String).data =
      'd' :: ("ocker run -d --restart=always " : String).data := by decide
  by_cases hcmd : f.cmd = ""
  · -- empty command: no entrypoint flag, nothing after the image
    have hX : (f.dockerRun c).data =
        pyStripL (("docker run -d --restart=always " : String).data ++
          ((" " : String).data ++
           ((envFlags (f.runEnv c)).data ++
            ((" " : String).data ++ (shell_quote f.image).data)))) := by
      show (dockerRunOf f.cmd f.image (f.runEnv c)).data = _
      unfold dockerRunOf
      simp only [hcmd, eq_self_iff_true, decide_True, Bool.not_true, if_false]
      show pyStripL _ = _
      congr 1
      simp [String.data_append, List.append_assoc]
    have hkeep : pyStripL (("docker run -d --restart=always " : String).data ++
          ((" " : String).data ++
           ((envFlags (f.runEnv c)).data ++
            ((" " : String).data ++ (shell_quote f.image).data)))) =
        ("docker run -d --restart=always " : String).data ++
          ((" " : String).data ++
           ((envFlags (f.runEnv c)).data ++
            ((" " : String).data ++ (shell_quote f.image).data))) := by
      apply pyStripL_keep_of _
        (("docker run -d --restart=always " : String).data ++
          ((" " : String).data ++
           ((envFlags (f.runEnv c)).data ++
            ((" " : String).data ++ mq)))) ch
      · rw [hqd']
        simp [List.append_assoc]
      · exact hch
      · exact ⟨_, by rw [hAd]; rfl⟩
    have hrun : (f.dockerRun c).data =
        ("docker run -d --restart=always " : String).data ++
          ((" " : String).data ++
           ((envFlags (f.runEnv c)).data ++
            ((" " : String).data ++ (shell_quote f.image).data))) := by
      rw [hX, hkeep]
    refine ⟨?_, ?_, ?_, ?_, ?_⟩
    · rw [hrun]; exact occurs_dash_d _
    · rw [hrun]; exact occurs_restart _
    · have hre : (f.dockerRun c).data =
          (("docker run -d --restart=always " : String).data ++
            (" " : String).data) ++
          ((envFlags (f.runEnv c)).data ++
            ((" " : String).data ++ (shell_quote f.image).data)) := by
        rw [hrun]; simp [List.append_assoc]
      rw [hre]
      exact occursL_mid _ _ _
    · intro hne; exact absurd hcmd hne
    · intro _
      refine ⟨hrun, ?_⟩
      have hre : (f.dockerRun c).data =
          (("docker run -d --restart=always " : String).data ++
            ((" " : String).data ++
             ((envFlags (f.runEnv c)).data ++ (" " : String).data))) ++
          (shell_quote f.image).data := by
        rw [hrun]; simp [List.append_assoc]
      rw [hre]
      exact endsWithL_append _ _
  · -- non-empty command: entrypoint cleared, cmd appended after the image
    have hX : (f.dockerRun c).data =
        pyStripL (("docker run -d --restart=always " : String).data ++
          (("--entrypoint ''" : String).data ++
           ((" " : String).data ++
            ((envFlags (f.runEnv c)).data ++
             ((" " : String).data ++
              ((shell_quote f.image).data ++
               (' ' :: f.cmd.data))))))) := by
      show (dockerRunOf f.cmd f.image (f.runEnv c)).data = _
      unfold dockerRunOf
      simp only [eq_false hcmd, decide_False, Bool.not_false, if_true]
      show pyStripL _ = _
      congr 1
      simp [String.data_append, List.append_assoc]
    have hXx : (("docker run -d --restart=always " : String).data ++
          (("--entrypoint ''" : String).data ++
           ((" " : String).data ++
            ((envFlags (f.runEnv c)).data ++
             ((" " : String).data ++
              ((shell_quote f.image).data ++
               (' ' :: f.cmd.data))))))) =
        (("docker run -d --restart=always " : String).data ++
          (("--entrypoint ''" : String).data ++
           ((" " : String).data ++
            ((envFlags (f.runEnv c)).data ++
             ((" " : String).data ++ (shell_quote f.image).data))))) ++
          (' ' :: f.cmd.data) := by
      simp [List.append_assoc]
    have hkeep : pyStripL ((("docker run -d --restart=always " : String).data ++
          (("--entrypoint ''" : String).data ++
           ((" " : String).data ++
            ((envFlags (f.runEnv c)).data ++
             ((" " : String).data ++ (shell_quote f.image).data))))) ++
          (' ' :: f.cmd.data)) =
        (("docker run -d --restart=always " : String).data ++
          (("--entrypoint ''" : String).data ++
           ((" " : String).data ++
            ((envFlags (f.runEnv c)).data ++
             ((" " : String).data ++ (shell_quote f.image).data))))) ++
          stripRightL (' ' :: f.cmd.data) := by
      apply pyStripL_keep_append _ _
        (("docker run -d --restart=always " : String).data ++
          (("--entrypoint ''" : String).data ++
           ((" " : String).data ++
            ((envFlags (f.runEnv c)).data ++
             ((" " : String).data ++ mq))))) ch
      · rw [hqd']
        simp [List.append_assoc]
      · exact hch
      · exact ⟨_, by rw [hAd]; rfl⟩
    refine ⟨?_, ?_, ?_, ?_, fun he => absurd he hcmd⟩
    · rw [hX, hXx, hkeep]
      simp only [List.append_assoc]
      exact occurs_dash_d _
    · rw [hX, hXx, hkeep]
      simp only [List.append_assoc]
      exact occurs_restart _
    · rw [hX, hXx, hkeep]
      have : (("docker run -d --restart=always " : String).data ++
          (("--entrypoint ''" : String).data ++
           ((" " : String).data ++
            ((envFlags (f.runEnv c)).data ++
             ((" " : String).data ++ (shell_quote f.image).data))))) ++
          stripRightL (' ' :: f.cmd.data) =
        (("docker run -d --restart=always " : String).data ++
          (("--entrypoint ''" : String).data ++ (" " : String).data)) ++
          ((envFlags (f.runEnv c)).data ++
           (((" " : String).data ++ (shell_quote f.image).data) ++
            stripRightL (' ' :: f.cmd.data))) := by
        simp [List.append_assoc]
      rw [this]
      exact occursL_mid _ _ _
    · intro _ hw
      have hD : f.cmd.data ≠ [] := fun hD => hcmd (string_eq_empty_of_data hD)
      have hsp : stripRightL (' ' :: f.cmd.data) = ' ' :: f.cmd.data :=
        stripRightL_space_cmd _ hD hw
      constructor
      · rw [hX, hXx, hkeep]
        have : (("docker run -d --restart=always " : String).data ++
            (("--entrypoint ''" : String).data ++
             ((" " : String).data ++
              ((envFlags (f.runEnv c)).data ++
               ((" " : String).data ++ (shell_quote f.image).data))))) ++
            stripRightL (' ' :: f.cmd.data) =
          ("docker run -d --restart=always " : String).data ++
            (("--entrypoint ''" : String).data ++
             (((" " : String).data ++
              ((envFlags (f.runEnv c)).data ++
               ((" " : String).data ++ ((shell_quote f.image).data ++
                stripRightL (' ' :: f.cmd.data))))))) := by
          simp [List.append_assoc]
        rw [this]
        exact occursL_mid _ _ _
      · rw [hX, hXx, hkeep, hsp]
        have : (("docker run -d --restart=always " : String).data ++
            (("--entrypoint ''" : String).data ++
             ((" " : String).data ++
              ((envFlags (f.runEnv c)).data ++
               ((" " : String).data ++ (shell_quote f.image).data))))) ++
            (' ' :: f.cmd.data) =
          (("docker run -d --restart=always " : String).data ++
            (("--entrypoint ''" : String).data ++
             ((" " : String).data ++
              ((envFlags (f.runEnv c)).data ++ (" " : String).data)))) ++
            ((shell_quote f.image).data ++ (' ' :: f.cmd.data)) := by
          simp [List.append_assoc]
        rw [this]
        exact endsWithL_append _ _

/-- C7 counterexample: with `cmd = "x "` the assembled run command is
stripped, so it ends in `x`, not in the literal `spec.cmd` suffix `"x "`
that the claim promises. -/
theorem dockerRun_trailing_cmd_counterexample :
    ContainerFleet.dockerRun { ecr := "h/r", cmd := "x " } {} =
      "docker run -d --restart=always --entrypoint ''  h/r:latest x" ∧
    endsWithL ((shell_quote
        (ContainerFleet.image { ecr := "h/r", cmd := "x " })).data ++
      ' ' :: ("x " : String).data)
      ((ContainerFleet.dockerRun { ecr := "h/r", cmd := "x " } {}).data)
      = false := by
  constructor
  · decide
  · decide

/-- C7 (amended) witness at a non-empty and an empty command. -/
theorem dockerRun_shape_witness :
    ((fleetCmd.cmd == "") = false) ∧
    stripRightL fleetCmd.cmd.data = fleetCmd.cmd.data ∧
    (occursL (("--entrypoint ''" : String).data)
        ((fleetCmd.dockerRun {}).data) = true ∧
     endsWithL ((shell_quote fleetCmd.image).data ++ ' ' :: fleetCmd.cmd.data)
       ((fleetCmd.dockerRun {}).data) = true) ∧
    (fleetNoCmd.cmd = "") ∧
    ((fleetNoCmd.dockerRun {}).data =
        ("docker run -d --restart=always " : String).data ++
          ((" " : String).data ++ ((envFlags (fleetNoCmd.runEnv {})).data ++
            ((" " : String).data ++ (shell_quote fleetNoCmd.image).data))) ∧
      endsWithL ((shell_quote fleetNoCmd.image).data)
        ((fleetNoCmd.dockerRun {}).data) = true) :=
  ⟨by decide, by decide,
   (dockerRun_shape fleetCmd {}).2.2.2.1 (by decide) (by decide),
   rfl,
   (dockerRun_shape fleetNoCmd {}).2.2.2.2 rfl⟩

theorem safe_not_shws {c : Char} (h : isShlexSafe c = true) :
    isShWS c = false := by
  cases hw : isShWS c
  · rfl
  · exfalso
    simp only [isShWS, Bool.or_eq_true, decide_eq_true_eq] at hw
    rcases hw with (rfl | rfl) | rfl <;> exact absurd h (by decide)

theorem safe_ne_squote {c : Char} (h : isShlexSafe c = true) : ¬ c = '\'' := by
  intro he
  subst he
  exact absurd h (by decide)

theorem safe_ne_dquote {c : Char} (h : isShlexSafe c = true) : ¬ c = '"' := by
  intro he
  subst he
  exact absurd h (by decide)

theorem safe_not_special {c : Char} (h : isShlexSafe c = true) :
    shSpecial c = false := by
  cases hs : shSpecial c
  · rfl
  · exfalso
    simp only [shSpecial, Bool.or_eq_true, decide_eq_true_eq] at hs
    rcases hs with ((((((((((((((rfl | rfl) | rfl) | rfl) | rfl) | rfl) |
      rfl) | rfl) | rfl) | rfl) | rfl) | rfl) | rfl) | rfl) | rfl) | rfl <;>
      exact absurd h (by decide)

theorem shTok_norm_plain (c : Char) (cs : List Char)
    (cur : Option (List Char)) (acc : List (List Char))
    (h1 : isShWS c = false) (h2 : ¬ c = '\'') (h3 : ¬ c = '"')
    (h4 : shSpecial c = false) :
    shTok (c :: cs) ShMode.norm cur acc =
      shTok cs ShMode.norm (some (cur.getD [] ++ [c])) acc := by
  simp [shTok, h1, h2, h3, h4]

theorem shTok_norm_plain_none (c : Char) (cs : List Char)
    (acc : List (List Char))
    (h1 : isShWS c = false) (h2 : ¬ c = '\'') (h3 : ¬ c = '"')
    (h4 : shSpecial c = false) :
    shTok (c :: cs) ShMode.norm none acc =
      shTok cs ShMode.norm (some [c]) acc := by
  rw [shTok_norm_plain c cs none acc h1 h2 h3 h4]
  rfl

theorem shTok_norm_plain_some (c : Char) (cs t : List Char)
    (acc : List (List Char))
    (h1 : isShWS c = false) (h2 : ¬ c = '\'') (h3 : ¬ c = '"')
    (h4 : shSpecial c = false) :
    shTok (c :: cs) ShMode.norm (some t) acc =
      shTok cs ShMode.norm (some (t ++ [c])) acc := by
  rw [shTok_norm_plain c cs (some t) acc h1 h2 h3 h4]
  rfl

theorem shTok_single_squote (cs : List Char) (cur : Option (List Char))
    (acc : List (List Char)) :
    shTok ('\'' :: cs) ShMode.single cur acc = shTok cs ShMode.norm cur acc := by
  simp [shTok]

theorem shTok_single_other (c : Char) (cs t : List Char)
    (acc : List (List Char)) (hc : ¬ c = '\'') :
    shTok (c :: cs) ShMode.single (some t) acc =
      shTok cs ShMode.single (some (t ++ [c])) acc := by
  simp [shTok, hc]

theorem shTok_norm_dquote_some (cs t : List Char) (acc : List (List Char)) :
    shTok ('"' :: cs) ShMode.norm (some t) acc =
      shTok cs ShMode.double (some t) acc := by
  simp [shTok, (by decide : isShWS '"' = false)]

theorem shTok_double_squote (cs t : List Char) (acc : List (List Char)) :
    shTok ('\'' :: cs) ShMode.double (some t) acc =
      shTok cs ShMode.double (some (t ++ ['\''])) acc := by
  simp [shTok]

theorem shTok_double_dquote (cs : List Char) (cur : Option (List Char))
    (acc : List (List Char)) :
    shTok ('"' :: cs) ShMode.double cur acc = shTok cs ShMode.norm cur acc := by
  simp [shTok]

theorem shTok_norm_squote_some (cs t : List Char) (acc : List (List Char)) :
    shTok ('\'' :: cs) ShMode.norm (some t) acc =
      shTok cs ShMode.single (some t) acc := by
  simp [shTok, (by decide : isShWS '\'' = false)]

theorem shTok_norm_squote_none (cs : List Char) (acc : List (List Char)) :
    shTok ('\'' :: cs) ShMode.norm none acc =
      shTok cs ShMode.single (some []) acc := by
  simp [shTok, (by decide : isShWS '\'' = false)]

theorem shTok_safe_run : ∀ (l : List Char), l.all isShlexSafe = true →
    ∀ (t : List Char) (acc : List (List Char)),
    shTok l ShMode.norm (some t) acc = some (acc ++ [t ++ l])
  | [], _, t, acc => by simp [shTok]
  | c :: cs, hl, t, acc => by
    have hc : isShlexSafe c = true ∧ cs.all isShlexSafe = true := by
      simpa using hl
    rw [shTok_norm_plain_some c cs t acc (safe_not_shws hc.1)
      (safe_ne_squote hc.1) (safe_ne_dquote hc.1) (safe_not_special hc.1)]
    rw [shTok_safe_run cs hc.2 (t ++ [c]) acc]
    simp

theorem shTok_quoted_run : ∀ (l t : List Char) (acc : List (List Char)),
    shTok (shlexReplace l ++ ['\'']) ShMode.single (some t) acc =
      some (acc ++ [t ++ l])
  | [], t, acc => by
    show shTok ([] ++ ['\'']) ShMode.single (some t) acc = _
    rw [List.nil_append, shTok_single_squote]
    simp [shTok]
  | c :: cs, t, acc => by
    by_cases hc : c = '\''
    · subst hc
      show shTok (shlexReplace ('\'' :: cs) ++ ['\'']) ShMode.single
        (some t) acc = _
      rw [show shlexReplace ('\'' :: cs) =
        '\'' :: '"' :: '\'' :: '"' :: '\'' :: shlexReplace cs from by
          simp [shlexReplace]]
      show shTok ('\'' :: '"' :: '\'' :: '"' :: '\'' ::
        (shlexReplace cs ++ ['\''])) ShMode.single (some t) acc = _
      rw [shTok_single_squote, shTok_norm_dquote_some, shTok_double_squote,
        shTok_double_dquote, shTok_norm_squote_some]
      rw [shTok_quoted_run cs (t ++ ['\'']) acc]
      simp
    · rw [show shlexReplace (c :: cs) = c :: shlexReplace cs from by
        simp [shlexReplace, hc]]
      show shTok (c :: (shlexReplace cs ++ ['\''])) ShMode.single
        (some t) acc = _
      rw [shTok_single_other c _ t acc hc]
      rw [shTok_quoted_run cs (t ++ [c]) acc]
      simp

theorem shTok_quote (l : List Char) :
    shTok (shlexQuoteL l) ShMode.norm none [] = some [l] := by
  unfold shlexQuoteL
  by_cases h0 : l = []
  · rw [if_pos h0, h0]
    decide
  · rw [if_neg h0]
    by_cases hs : l.all isShlexSafe
    · rw [if_pos hs]
      obtain ⟨c, cs, rfl⟩ : ∃ c cs, l = c :: cs := by
        cases l with
        | nil => exact absurd rfl h0
        | cons c cs => exact ⟨c, cs, rfl⟩
      have hc : isShlexSafe c = true ∧ cs.all isShlexSafe = true := by
        simpa using hs
      rw [shTok_norm_plain_none c cs [] (safe_not_shws hc.1)
        (safe_ne_squote hc.1) (safe_ne_dquote hc.1) (safe_not_special hc.1)]
      rw [shTok_safe_run cs hc.2 [c] []]
      simp
    · rw [if_neg hs]
      show shTok ('\'' :: (shlexReplace l ++ ['\''])) ShMode.norm none [] = _
      rw [shTok_norm_squote_none]
      rw [shTok_quoted_run l [] []]
      simp

/-- C6: for every string value (the empty string, strings with spaces,
single quotes, dollar signs and backticks included), tokenizing the
`shlex.quote` output with a POSIX-shell tokenizer (single quotes literal;
double quotes literal except for the expansion characters; whitespace
splits words; unquoted metacharacters rejected) yields back exactly the
original string as one single token; the quoter is total. -/
theorem shell_quote_posix_roundtrip (s : String) :
    shTokenize (shell_quote s) = some [s] := by
  unfold shTokenize
  have hd : (shell_quote s).data = shlexQuoteL s.data := rfl
  rw [hd, shTok_quote]
  have hmk : String.mk s.data = s := by cases s; rfl
  simp [hmk]

theorem getD_append_of_lt {α : Type} : ∀ (l t : List α) (d : α) (i : Nat),
    i < l.length → (l ++ t).getD i d = l.getD i d
  | [], _, _, i, hi => by simp at hi
  | _ :: _, _, _, 0, _ => rfl
  | _ :: l, t, d, i + 1, hi => by
    show (l ++ t).getD i d = l.getD i d
    exact getD_append_of_lt l t d i (by simpa using hi)

theorem getD_append_self {α : Type} : ∀ (l : List α) (e d : α),
    (l ++ [e]).getD l.length d = e
  | [], _, _ => rfl
  | _ :: l, e, d => getD_append_self l e d

theorem getD_set_ne {α : Type} : ∀ (l : List α) (j i : Nat) (x d : α),
    ¬ j = i → (l.set j x).getD i d = l.getD i d
  | [], _, _, _, _, _ => rfl
  | _ :: _, 0, 0, _, _, h => absurd rfl h
  | _ :: _, 0, _ + 1, _, _, _ => rfl
  | _ :: _, _ + 1, 0, _, _, _ => rfl
  | _ :: l, j + 1, i + 1, x, d, h =>
    getD_set_ne l j i x d (fun he => h (by rw [he]))

theorem getD_set_self {α : Type} : ∀ (l : List α) (j : Nat) (x d : α),
    j < l.length → (l.set j x).getD j d = x
  | [], j, _, _, hj => by simp at hj
  | _ :: _, 0, _, _, _ => rfl
  | _ :: l, j + 1, x, d, hj => getD_set_self l j x d (by simpa using hj)

theorem buildRunEnvHeap_spec (heap : List (List (String × String)))
    (envRef : Nat) (c : AwsRuntimeCredentials) (inc : Bool)
    (hr : envRef < heap.length) :
    (buildRunEnvHeap heap envRef c inc).1.getD envRef [] =
      heap.getD envRef [] ∧
    (buildRunEnvHeap heap envRef c inc).1.getD
      (buildRunEnvHeap heap envRef c inc).2 [] =
      runEnvPure (heap.getD envRef []) c inc := by
  have hne : ¬ heap.length = envRef := by omega
  have step : ∀ (hh : List (List (String × String))) (k kv : String)
      (b : Bool) (e0 v : List (String × String)),
      hh.getD envRef [] = e0 → hh.getD heap.length [] = v →
      heap.length < hh.length →
      ((if b then mutSetdefault hh heap.length k kv else hh).getD envRef []
          = e0 ∧
       (if b then mutSetdefault hh heap.length k kv else hh).getD
          heap.length [] = (if b then setdefault v k kv else v) ∧
       heap.length <
          (if b then mutSetdefault hh heap.length k kv else hh).length) := by
    intro hh k kv b e0 v h1 h2 h3
    cases b
    · simp only [Bool.false_eq_true, if_false]
      exact ⟨h1, h2, h3⟩
    · simp only [if_true]
      refine ⟨?_, ?_, ?_⟩
      · rw [mutSetdefault, getD_set_ne _ _ _ _ _ hne, h1]
      · rw [mutSetdefault, getD_set_self _ _ _ _ h3, h2]
      · simpa [mutSetdefault] using h3
  unfold buildRunEnvHeap runEnvPure
  have hb1 : (heap ++ [heap.getD envRef []]).getD envRef [] =
      heap.getD envRef [] := getD_append_of_lt _ _ _ _ hr
  have hb2 : (heap ++ [heap.getD envRef []]).getD heap.length [] =
      heap.getD envRef [] := getD_append_self _ _ _
  have hb3 : heap.length < (heap ++ [heap.getD envRef []]).length := by simp
  cases inc
  · exact ⟨hb1, hb2⟩
  · simp only [if_true]
    obtain ⟨s1a, s1b, s1c⟩ := step _ "AWS_REGION" (orEmpty c.region)
      (pyTruthy c.region) _ _ hb1 hb2 hb3
    obtain ⟨s2a, s2b, s2c⟩ := step _ "AWS_ACCESS_KEY_ID"
      (orEmpty c.access_key) (pyTruthy c.access_key) _ _ s1a s1b s1c
    obtain ⟨s3a, s3b, s3c⟩ := step _ "AWS_SECRET_ACCESS_KEY"
      (orEmpty c.secret_key) (pyTruthy c.secret_key) _ _ s2a s2b s2c
    exact ⟨s3a, s3b⟩

/-- C9: rendering never mutates its inputs.  With the caller's `env` dict
living on a heap, `render` copies it (`dict(self.env)`) before the
credential injection, so after the call — whether it fails with the
unsupported-OS error or succeeds — the cell holding `spec.env` is
unchanged, and the produced result coincides with the pure `render` of the
unchanged spec and credential values (the credential record is rebuilt by
`_aws_creds` and only ever read). -/
theorem render_no_mutation (f : ContainerFleet)
    (heap : List (List (String × String))) (envRef : Nat)
    (c : AwsRuntimeCredentials)
    (hr : envRef < heap.length) (henv : heap.getD envRef [] = f.env) :
    (renderHeap f heap envRef c).2.getD envRef [] = f.env ∧
    (renderHeap f heap envRef c).1 = f.render c := by
  obtain ⟨hb1, hb2⟩ := buildRunEnvHeap_spec heap envRef c f.include_aws_env hr
  unfold renderHeap ContainerFleet.render
  cases hi : installFor f.os with
  | error e => exact ⟨henv, rfl⟩
  | ok inst =>
    constructor
    · rw [hb1]
      exact henv
    · show Except.ok (scriptOf f c inst
          ((buildRunEnvHeap heap envRef c f.include_aws_env).1.getD
            (buildRunEnvHeap heap envRef c f.include_aws_env).2 [])) =
        Except.map (fun install => scriptOf f c install (f.runEnv c))
          (Except.ok inst)
      rw [hb2, henv]
      rfl

/-- C9 witness on a one-cell heap holding the caller's env dict. -/
theorem render_no_mutation_witness :
    (0 < ([[("K", "V")]] : List (List (String × String))).length) ∧
    (([[("K", "V")]] : List (List (String × String))).getD 0 [] =
      fleetEnv.env) ∧
    ((renderHeap fleetEnv [[("K", "V")]] 0 credsFull).2.getD 0 [] =
        fleetEnv.env ∧
      (renderHeap fleetEnv [[("K", "V")]] 0 credsFull).1 =
        fleetEnv.render credsFull) :=
  ⟨by decide, by decide,
   render_no_mutation fleetEnv [[("K", "V")]] 0 credsFull (by decide)
     (by decide)⟩

end Antokel
